import Mathlib

/-!
Shallow embedding of the `bitrate` applet's core (src/app.rs, src/network.rs):
interface selection, bandwidth sampling, unit rescaling and rate display
formatting, together with proofs about the embedded code.

Conventions:
* Rust `u64` values are `Nat` together with explicit `% 2 ^ 64` wherever the
  source's arithmetic can wrap (release-mode two's-complement semantics).
* Rust `String` values are modelled as `List Char` (Rust `chars()` sequences)
  or Lean `String` where convenient.
* Fallible reads (`fs::read_to_string`, counter reads) are `Option` inputs
  threaded into the functions that consume them.
* `f64` values arising in `set_download_speed_display` are always of the form
  `speed / 2 ^ pp` with `pp` a multiple of 10: the division is by a power of
  two and hence exact, so for `speed < 2 ^ 53` (where `speed as f64` is also
  exact) the comparisons and fixed-precision renderings below coincide exactly
  with the source's `f64` computations.  Rust's `format!("{:.k}", v)` rounds
  the exact binary value to `k` decimals with ties to even, which is what
  `fmtFixed` implements over the exact rational `speed / 2 ^ pp`.
-/

namespace Bitrate

/-- `2 ^ 64`, the modulus of Rust `u64` arithmetic. -/
def U64 : Nat := 2 ^ 64

/-- Wrapping `u64` subtraction `a - b` (valid model for `a, b < 2 ^ 64`),
as performed (in release builds) by `received_bytes_cur - self.received_bytes`
in `Message::UpdateBandwidth`. -/
def wrapSub (a b : Nat) : Nat := (a + U64 - b) % U64

/-- `config::Unit` — the unit mode of the applet configuration. -/
inductive Unit where
  | Bits
  | Bytes
deriving DecidableEq

/-- `config::BitrateAppletConfig` (the fields the core consumes). -/
structure BitrateAppletConfig where
  unit : Unit
  update_rate : Nat
deriving DecidableEq

/-! ## network.rs -/

/-- One (already `Ok`) entry of `fs::read_dir("/sys/class/net")` as consumed by
`get_default_network_interface`, together with the two per-interface files the
function reads.  `file_name = none` models a file name that is not valid UTF-8
(`entry.file_name().into_string()` returns `Err`); `operstate`/`carrier` are
`none` when the corresponding `fs::read_to_string` fails. -/
structure DirEntry where
  file_name : Option String
  operstate : Option String
  carrier : Option String
deriving DecidableEq

/-- Rust `str::contains(pat)`: substring containment. -/
def strContains (s pat : String) : Bool := decide (pat.toList <:+: s.toList)

/-- Rust `str::trim`: strip leading and trailing whitespace. -/
def rustTrim (s : String) : String :=
  ⟨((s.toList.dropWhile Char.isWhitespace).reverse.dropWhile Char.isWhitespace).reverse⟩

/-- The `for entry in paths.flatten()` loop body of
`get_default_network_interface`.  Returning `none` at a `file_name` decode
failure models the early `return None` of the `?` operator. -/
def scanEntries : List DirEntry → Option String
  | [] => none
  | e :: rest =>
    match e.file_name with
    | none => none
    | some iface =>
      -- 1. Skip loopback
      if iface = "lo" then scanEntries rest
      else
        -- 2. Check if the interface is 'up'
        let operstate := e.operstate.getD ""
        if ¬ strContains operstate "up" then scanEntries rest
        else
          -- 3. Check for carrier (physical connection detected)
          let carrier := e.carrier.getD ""
          if rustTrim carrier = "1" then some iface else scanEntries rest

/-- `network::get_default_network_interface`, with the result of
`fs::read_dir("/sys/class/net").ok()` (post-`flatten`) passed in explicitly. -/
def get_default_network_interface (dir : Option (List DirEntry)) : Option String :=
  match dir with
  | none => none
  | some entries => scanEntries entries

/-- The selection policy of the spec, as a predicate on one directory entry:
not the loopback `"lo"`, operstate contains `"up"`, trimmed carrier is `"1"`.
Used to state that the scan returns the first qualifying candidate. -/
def qualifies (e : DirEntry) : Bool :=
  match e.file_name with
  | none => false
  | some iface =>
      !(iface == "lo") && strContains (e.operstate.getD "") "up" &&
        (rustTrim (e.carrier.getD "") == "1")

/-! ## Display formatting (app.rs) -/

/-- Decimal digit characters of `n` (most significant first), fuelled so that
the definition reduces inside the kernel; `64` units of fuel cover every
number below `10 ^ 64`.  This is the rendering of a nonnegative integer
performed by Rust's `format!`. -/
def natDigits : Nat → Nat → List Char
  | 0, _ => []
  | fuel + 1, n =>
    if n < 10 then [Nat.digitChar n]
    else natDigits fuel (n / 10) ++ [Nat.digitChar (n % 10)]

/-- Decimal character rendering of a natural number. -/
def natChars (n : Nat) : List Char := natDigits 64 n

/-- Exactly `k` decimal digits of the fraction `m / 10 ^ k` (zero padded), as
Rust's `format!("{:.k}", _)` renders the fractional part. -/
def fracDigits : Nat → Nat → List Char
  | 0, _ => []
  | k + 1, m => fracDigits k (m / 10) ++ [Nat.digitChar (m % 10)]

/-- Rust `format!("{:.k}", v)` for the exact value `v = speed / 2 ^ pp`:
round `v * 10 ^ k` to the nearest integer (ties to even, as Rust float
formatting does) and print it with `k` digits after the decimal point. -/
def fmtFixed (speed pp k : Nat) : List Char :=
  let n := speed * 10 ^ k
  let d := 2 ^ pp
  let q := n / d
  let r := n % d
  let rounded := if d < 2 * r then q + 1 else if 2 * r < d then q else q + q % 2
  natChars (rounded / 10 ^ k) ++
    (if k = 0 then [] else '.' :: fracDigits k (rounded % 10 ^ k))

/-- Rust `str::trim_end_matches('0')`. -/
def dropTrailingZeros (l : List Char) : List Char :=
  (l.reverse.dropWhile (· == '0')).reverse

/-- Rust `str::trim_end_matches('.')`. -/
def dropTrailingDots (l : List Char) : List Char :=
  (l.reverse.dropWhile (· == '.')).reverse

/-- The local variable `formatted` of `AppModel::format_speed`: the
fixed-precision rendering of `val = speed / 2 ^ pp` before trailing zeros and
the trailing decimal point are cleaned up.  The comparisons `val >= 1000.0`
and `val >= 100.0` of the source are translated to the exact integer
comparisons `1000 * 2 ^ pp <= speed` and `100 * 2 ^ pp <= speed`. -/
def format_speed_formatted (speed pp : Nat) : List Char :=
  if 1000 * 2 ^ pp ≤ speed then fmtFixed speed pp 0
  else if 100 * 2 ^ pp ≤ speed then fmtFixed speed pp 1
  else fmtFixed speed pp 2

/-- `AppModel::format_speed`, on the exact value `speed / 2 ^ pp`: format,
clean up trailing zeros then a trailing decimal point, truncate to 5 chars. -/
def format_speed (speed pp : Nat) : List Char :=
  (dropTrailingDots (dropTrailingZeros (format_speed_formatted speed pp))).take 5

/-- `u64::ilog2` (floor of the base-2 logarithm; the source only calls it on
positive values), fuelled so that it reduces in the kernel; fuel `64` covers
every `u64`. -/
def ilog2Aux : Nat → Nat → Nat
  | 0, _ => 0
  | fuel + 1, n => if n ≤ 1 then 0 else ilog2Aux fuel (n / 2) + 1

/-- `u64::ilog2`. -/
def ilog2 (n : Nat) : Nat := ilog2Aux 64 n

/-- Number of characters after the decimal point of a rendered numeral
(`0` when there is no decimal point). -/
def decimalPlaces (l : List Char) : Nat :=
  if '.' ∈ l then (l.reverse.takeWhile (· ≠ '.')).length else 0

/-- `AppModel::set_download_speed_display`, as a function of the stored
`download_speed` and the configured unit, returning the new
`(download_speed_display, download_unit)` pair (as character lists). -/
def set_download_speed_display (speed : Nat) (u : Unit) : List Char × List Char :=
  -- Closest power of 2
  let download_power := if 0 < speed then ilog2 speed else 0
  -- Dividing by closest power of 1024
  let pp := download_power - download_power % 10
  let download_speed_display :=
    if 10 ≤ download_power then format_speed speed pp
    else
      -- No decimal places if speed <= 1024 bits or Bytes
      fmtFixed speed pp 0
  let download_unit :=
    (if 20 ≤ download_power then ['M'] else if 10 ≤ download_power then ['K'] else []) ++
      (match u with
        | Unit.Bits => "b/s".toList
        | Unit.Bytes => "B/s".toList) ++
      "  ↓".toList
  (download_speed_display, download_unit)

/-- `AppModel::set_upload_speed_display`, as a function of the stored
`upload_speed` and the configured unit. -/
def set_upload_speed_display (speed : Nat) (u : Unit) : List Char × List Char :=
  let upload_power := if 0 < speed then ilog2 speed else 0
  let pp := upload_power - upload_power % 10
  let upload_speed_display :=
    if 10 ≤ upload_power then format_speed speed pp
    else fmtFixed speed pp 0
  let upload_unit :=
    (if 20 ≤ upload_power then ['M'] else if 10 ≤ upload_power then ['K'] else []) ++
      (match u with
        | Unit.Bits => "b/s".toList
        | Unit.Bytes => "B/s".toList) ++
      "  ↑".toList
  (upload_speed_display, upload_unit)

/-! ## Application state and update handling (app.rs) -/

/-- `segmented_button::SingleSelectModel`, reduced to the one observable the
source uses: which entity is currently active.  `activate e` sets it;
`is_active e` compares it. -/
structure SingleSelectModel where
  active : Nat
deriving DecidableEq

/-- The fields of `AppModel` that the core logic reads or writes.  Excluded
are the pure presentation fields (popup id, fonts, rectangle tracking, config
helper handle). -/
structure AppModel where
  config : BitrateAppletConfig
  default_network_interface : Option String
  received_bytes : Nat
  sent_bytes : Nat
  download_speed : Nat
  download_speed_display : List Char
  download_unit : List Char
  upload_speed : Nat
  upload_speed_display : List Char
  upload_unit : List Char
  unit_model : SingleSelectModel
  bits_entity : Nat
  bytes_entity : Nat
deriving DecidableEq

/-- The `Message::UpdateBandwidth` arm of `AppModel::update`.  The two counter
reads `network::get_received_bytes` / `network::get_sent_bytes` are passed in
as `rx` / `tx` (`none` models a failed read).  `u64` subtraction and the `*8`
scaling wrap modulo `2 ^ 64`; the division by `update_rate` is `u64` integer
division (the configuration keeps `update_rate` in `1..=10`). -/
def update_bandwidth (s : AppModel) (rx tx : Option Nat) : AppModel :=
  match s.default_network_interface with
  | none => s
  | some _ =>
    let s1 :=
      match rx with
      | none => s
      | some received_bytes_cur =>
        let speed := wrapSub received_bytes_cur s.received_bytes
        let speed := if s.config.unit = Unit.Bits then speed * 8 % U64 else speed
        let speed := speed / s.config.update_rate
        let disp := set_download_speed_display speed s.config.unit
        { s with
            download_speed := speed
            received_bytes := received_bytes_cur
            download_speed_display := disp.1
            download_unit := disp.2 }
    match tx with
    | none => s1
    | some sent_bytes_cur =>
      let speed := wrapSub sent_bytes_cur s1.sent_bytes
      let speed := if s1.config.unit = Unit.Bits then speed * 8 % U64 else speed
      let speed := speed / s1.config.update_rate
      let disp := set_upload_speed_display speed s1.config.unit
      { s1 with
          upload_speed := speed
          sent_bytes := sent_bytes_cur
          upload_speed_display := disp.1
          upload_unit := disp.2 }

/-- The `Message::UnitChanged(entity)` arm of `AppModel::update`: when the
clicked entity is not the active one, activate it, rescale both stored raw
rates in place (`*8` wrapping modulo `2 ^ 64` for bits, `/8` integer division
for bytes), persist the new unit, and recompute both displays. -/
def update_unit_changed (s : AppModel) (entity : Nat) : AppModel :=
  if s.unit_model.active = entity then s
  else
    let s1 := { s with unit_model := SingleSelectModel.mk entity }
    let s2 :=
      if entity = s1.bits_entity then
        { s1 with
            download_speed := s1.download_speed * 8 % U64
            upload_speed := s1.upload_speed * 8 % U64
            config := { s1.config with unit := Unit.Bits } }
      else if entity = s1.bytes_entity then
        { s1 with
            download_speed := s1.download_speed / 8
            upload_speed := s1.upload_speed / 8
            config := { s1.config with unit := Unit.Bytes } }
      else s1
    let d := set_download_speed_display s2.download_speed s2.config.unit
    let u := set_upload_speed_display s2.upload_speed s2.config.unit
    { s2 with
        download_speed_display := d.1
        download_unit := d.2
        upload_speed_display := u.1
        upload_unit := u.2 }

/-! ## Concrete states and directory entries used to evaluate the handlers -/

/-- A concrete application state: unit mode `u`, update rate `rate`, stored
previous counters `rx0`/`tx0`, stored raw rates `dl`/`ul`, selected interface
`iface`.  The segmented-button model has `bits_entity = 0`, `bytes_entity = 1`
and entity `1` (bytes) active, matching a freshly initialised applet in Bytes
mode. -/
def mkState (u : Unit) (rate rx0 tx0 dl ul : Nat) (iface : Option String) : AppModel :=
  { config := { unit := u, update_rate := rate }
    default_network_interface := iface
    received_bytes := rx0
    sent_bytes := tx0
    download_speed := dl
    download_speed_display := []
    download_unit := []
    upload_speed := ul
    upload_speed_display := []
    upload_unit := []
    unit_model := SingleSelectModel.mk 1
    bits_entity := 0
    bytes_entity := 1 }

/-- The loopback entry of the spec's interface-selection example. -/
def entryLo : DirEntry := ⟨some "lo", some "unknown", some "1"⟩

/-- The administratively-down `eth0` entry of the spec's example. -/
def entryEthDown : DirEntry := ⟨some "eth0", some "down", some "0"⟩

/-- The up-with-carrier `wlan0` entry of the spec's example. -/
def entryWlanUp : DirEntry := ⟨some "wlan0", some "up\n", some "1\n"⟩

/-- A directory entry whose file name is not valid UTF-8. -/
def entryBadName : DirEntry := ⟨none, some "up\n", some "1\n"⟩

/-! ## Helper lemmas -/

theorem digitChar_ne_dot : ∀ n < 10, Nat.digitChar n ≠ '.' := by decide

theorem natDigits_not_dot : ∀ fuel n, '.' ∉ natDigits fuel n := by
  intro fuel
  induction fuel with
  | zero => intro n h; simp [natDigits] at h
  | succ f ih =>
    intro n h
    rw [natDigits] at h
    split at h
    · next hlt =>
      rw [List.mem_singleton] at h
      exact digitChar_ne_dot n hlt h.symm
    · rcases List.mem_append.1 h with h1 | h2
      · exact ih _ h1
      · rw [List.mem_singleton] at h2
        exact digitChar_ne_dot (n % 10) (Nat.mod_lt _ (by norm_num)) h2.symm

theorem natChars_not_dot (n : Nat) : '.' ∉ natChars n := natDigits_not_dot 64 n

theorem fracDigits_not_dot : ∀ k m, '.' ∉ fracDigits k m := by
  intro k
  induction k with
  | zero => intro m h; simp [fracDigits] at h
  | succ k ih =>
    intro m h
    rw [fracDigits] at h
    rcases List.mem_append.1 h with h1 | h2
    · exact ih _ h1
    · rw [List.mem_singleton] at h2
      exact digitChar_ne_dot (m % 10) (Nat.mod_lt _ (by norm_num)) h2.symm

theorem fracDigits_length : ∀ k m, (fracDigits k m).length = k := by
  intro k
  induction k with
  | zero => intro m; rfl
  | succ k ih => intro m; simp [fracDigits, ih]

theorem takeWhile_all_append {p : Char → Bool} :
    ∀ (xs : List Char) (y : Char) (ys : List Char),
      (∀ x ∈ xs, p x = true) → p y = false →
      List.takeWhile p (xs ++ y :: ys) = xs := by
  intro xs y ys hall hy
  induction xs with
  | nil => simp [List.takeWhile_cons, hy]
  | cons a as ih =>
    rw [List.cons_append, List.takeWhile_cons,
      hall a (List.mem_cons_self a as)]
    simp [ih (fun x hx => hall x (List.mem_cons_of_mem a hx))]

theorem decimalPlaces_of_not_dot {l : List Char} (h : '.' ∉ l) :
    decimalPlaces l = 0 := by
  simp [decimalPlaces, h]

theorem decimalPlaces_append_frac (a f : List Char) (hf : '.' ∉ f) :
    decimalPlaces (a ++ '.' :: f) = f.length := by
  unfold decimalPlaces
  rw [if_pos (by simp)]
  rw [List.reverse_append, List.reverse_cons, List.append_assoc,
    List.singleton_append]
  rw [takeWhile_all_append f.reverse '.' a.reverse
    (by
      intro x hx
      have hxf : x ∈ f := List.mem_reverse.1 hx
      simp only [ne_eq, decide_eq_true_eq]
      intro hdot
      exact hf (hdot ▸ hxf))
    (by simp)]
  exact List.length_reverse f

theorem decimalPlaces_fmtFixed (speed pp k : Nat) :
    decimalPlaces (fmtFixed speed pp k) = if k = 0 then 0 else k := by
  by_cases hk : k = 0
  · subst hk
    simp only [fmtFixed, if_pos rfl, List.append_nil, if_pos]
    exact decimalPlaces_of_not_dot (natChars_not_dot _)
  · rw [if_neg hk]
    simp only [fmtFixed, if_neg hk]
    rw [decimalPlaces_append_frac _ _ (fracDigits_not_dot _ _)]
    exact fracDigits_length _ _

theorem log2_of_le_one {n : Nat} (h : n ≤ 1) : Nat.log2 n = 0 := by
  interval_cases n
  · exact Nat.log2_zero
  · exact Nat.lt_one_iff.1 ((Nat.log2_lt one_ne_zero).2 (by norm_num))

theorem log2_rec {n : Nat} (h : 2 ≤ n) : Nat.log2 n = Nat.log2 (n / 2) + 1 := by
  conv_lhs => rw [Nat.log2]
  rw [if_pos h]

theorem ilog2Aux_eq_log2 : ∀ fuel n, n < 2 ^ fuel → ilog2Aux fuel n = Nat.log2 n := by
  intro fuel
  induction fuel with
  | zero =>
    intro n hn
    interval_cases n
    exact Nat.log2_zero.symm
  | succ f ih =>
    intro n hn
    rw [ilog2Aux]
    by_cases h1 : n ≤ 1
    · rw [if_pos h1, log2_of_le_one h1]
    · push_neg at h1
      rw [if_neg (by omega), log2_rec h1]
      congr 1
      exact ih (n / 2) (by omega)

/-- On `u64` values, the fuelled `ilog2` agrees with the mathematical
floor base-2 logarithm. -/
theorem ilog2_eq_log2 {n : Nat} (h : n < 2 ^ 64) : ilog2 n = Nat.log2 n :=
  ilog2Aux_eq_log2 64 n h

/-- A number below `10 ^ k` renders with at most `k` decimal digits. -/
theorem natDigits_length_le : ∀ fuel n k, 1 ≤ k → n < 10 ^ k → k ≤ fuel →
    (natDigits fuel n).length ≤ k := by
  intro fuel
  induction fuel with
  | zero => intro n k h1 _ hk; omega
  | succ f ih =>
    intro n k h1 hn hk
    rw [natDigits]
    by_cases h10 : n < 10
    · rw [if_pos h10]
      simpa using h1
    · rw [if_neg h10]
      have hk2 : 2 ≤ k := by
        by_contra hlt
        push_neg at hlt
        interval_cases k
        exact h10 (by simpa using hn)
      have hdiv : n / 10 < 10 ^ (k - 1) := by
        rw [Nat.div_lt_iff_lt_mul (by norm_num)]
        calc n < 10 ^ k := hn
          _ = 10 ^ (k - 1) * 10 := by
              rw [← Nat.pow_succ]
              congr 1
              omega
      have hrec := ih (n / 10) (k - 1) (by omega) hdiv (by omega)
      rw [List.length_append, List.length_singleton]
      omega

/-- With no rebase (`pp = 0`) and no decimals, `fmtFixed` is the plain
decimal rendering of the integer. -/
theorem fmtFixed_pp_zero (n : Nat) : fmtFixed n 0 0 = natChars n := by
  simp [fmtFixed, Nat.mod_one]

/-- Wrapping `u64` subtraction agrees with plain subtraction when there is no
regression (`b ≤ a`) and `a` is a `u64` value. -/
theorem wrapSub_of_le {a b : Nat} (hle : b ≤ a) (ha : a < 2 ^ 64) :
    wrapSub a b = a - b := by
  simp only [wrapSub, U64]
  omega

/-- Field-level description of `Message::UnitChanged(bits_entity)` when the
bits entity is not the active one: both rates are scaled by 8 (wrapping), the
unit becomes `Bits`, and counters, entities and the rest of the configuration
are untouched. -/
theorem update_unit_changed_to_bits (s : AppModel)
    (h : ¬ s.unit_model.active = s.bits_entity) :
    (update_unit_changed s s.bits_entity).download_speed = s.download_speed * 8 % U64 ∧
    (update_unit_changed s s.bits_entity).upload_speed = s.upload_speed * 8 % U64 ∧
    (update_unit_changed s s.bits_entity).config.unit = Unit.Bits ∧
    (update_unit_changed s s.bits_entity).config.update_rate = s.config.update_rate ∧
    (update_unit_changed s s.bits_entity).received_bytes = s.received_bytes ∧
    (update_unit_changed s s.bits_entity).sent_bytes = s.sent_bytes ∧
    (update_unit_changed s s.bits_entity).unit_model.active = s.bits_entity ∧
    (update_unit_changed s s.bits_entity).bits_entity = s.bits_entity ∧
    (update_unit_changed s s.bits_entity).bytes_entity = s.bytes_entity := by
  refine ⟨?_, ?_, ?_, ?_, ?_, ?_, ?_, ?_, ?_⟩ <;> simp [update_unit_changed, h]

/-- Field-level description of `Message::UnitChanged(bytes_entity)` when the
bytes entity is not the active one (and differs from the bits entity): both
rates are divided by 8 and the unit becomes `Bytes`. -/
theorem update_unit_changed_to_bytes (s : AppModel)
    (h : ¬ s.unit_model.active = s.bytes_entity)
    (hne : ¬ s.bytes_entity = s.bits_entity) :
    (update_unit_changed s s.bytes_entity).download_speed = s.download_speed / 8 ∧
    (update_unit_changed s s.bytes_entity).upload_speed = s.upload_speed / 8 ∧
    (update_unit_changed s s.bytes_entity).config.unit = Unit.Bytes := by
  refine ⟨?_, ?_, ?_⟩ <;> simp [update_unit_changed, h, hne]

/-- When every directory entry's name decodes (no UTF-8 failure), the scan
loop returns the name of the first entry satisfying the selection policy. -/
theorem scanEntries_eq_find :
    ∀ entries : List DirEntry,
      (∀ e ∈ entries, e.file_name.isSome = true) →
      scanEntries entries = (entries.find? qualifies).bind (fun e => e.file_name) := by
  intro entries
  induction entries with
  | nil => intro _; rfl
  | cons e rest ih =>
    intro hall
    have hrest : ∀ x ∈ rest, x.file_name.isSome = true :=
      fun x hx => hall x (List.mem_cons_of_mem e hx)
    obtain ⟨iface, hif⟩ :=
      Option.isSome_iff_exists.1 (hall e (List.mem_cons_self e rest))
    simp only [scanEntries, hif, List.find?_cons]
    by_cases h1 : iface = "lo"
    · have hq : qualifies e = false := by simp [qualifies, hif, h1]
      simp [h1, hq, ih hrest]
    · by_cases h2 : strContains (e.operstate.getD "") "up" = true
      · by_cases h3 : rustTrim (e.carrier.getD "") = "1"
        · have hq : qualifies e = true := by simp [qualifies, hif, h1, h2, h3]
          simp [h1, h2, h3, hq, hif]
        · have hq : qualifies e = false := by simp [qualifies, hif, h3]
          simp [h1, h2, h3, hq, ih hrest]
      · have hq : qualifies e = false := by simp [qualifies, hif, h2]
        simp [h1, h2, hq, ih hrest]

end Bitrate

open Bitrate

/-! ## Claim theorems -/

/-- C1: behaviour of the code at the counter-regression input.  With stored
baseline `received_bytes = 5000`, a fresh read of `100`, Bytes mode and a 1 s
interval, the `u64` subtraction in `Message::UpdateBandwidth` wraps: the
stored rate becomes `2 ^ 64 - 4900`, a near-`u64::MAX` value (in particular
at least `2 ^ 63`), contradicting the claim that no near-`u64::MAX` rate is
ever produced; the baseline is nevertheless resynchronised to `100`. -/
theorem c1_counter_regression_wraps :
    (update_bandwidth (mkState .Bytes 1 5000 0 0 0 (some "eth0"))
        (some 100) none).download_speed = 2 ^ 64 - 4900 ∧
    2 ^ 63 ≤ (update_bandwidth (mkState .Bytes 1 5000 0 0 0 (some "eth0"))
        (some 100) none).download_speed ∧
    (update_bandwidth (mkState .Bytes 1 5000 0 0 0 (some "eth0"))
        (some 100) none).received_bytes = 100 := by
  refine ⟨?_, ?_, ?_⟩ <;> decide

/-- C6: when every directory entry's file name decodes as UTF-8,
`get_default_network_interface` returns the name of the first entry in
enumeration order that is not `"lo"`, whose operstate contains `"up"` and
whose trimmed carrier equals `"1"` (the `qualifies` policy), and returns
`none` when no candidate qualifies. -/
theorem c6_select_default_first_qualifying (entries : List DirEntry)
    (hnames : ∀ e ∈ entries, e.file_name.isSome = true) :
    get_default_network_interface (some entries) =
      (entries.find? qualifies).bind (fun e => e.file_name) ∧
    ((∀ e ∈ entries, qualifies e = false) →
      get_default_network_interface (some entries) = none) := by
  have h : get_default_network_interface (some entries) =
      (entries.find? qualifies).bind (fun e => e.file_name) :=
    scanEntries_eq_find entries hnames
  refine ⟨h, fun hq => ?_⟩
  rw [h, List.find?_eq_none.2 (fun x hx => by simp [hq x hx])]
  rfl

/-- C6 witness: on the spec's example `["lo", "eth0"(down), "wlan0"(up,1)]`
the selector returns `"wlan0"`. -/
theorem c6_select_default_first_qualifying_witness :
    get_default_network_interface (some [entryLo, entryEthDown, entryWlanUp]) =
      some "wlan0" := by
  have h := (c6_select_default_first_qualifying
    [entryLo, entryEthDown, entryWlanUp] (by decide)).1
  exact h.trans (by decide)

/-- C9: a directory entry whose file name is not valid UTF-8 makes
`get_default_network_interface` return `None` for the whole scan (the `?` on
`into_string().ok()`): if the entries before it decode but do not qualify,
the result is `none` whatever entries follow — even qualifying ones. -/
theorem c9_nonutf8_name_aborts_scan (pre : List DirEntry) (bad : DirEntry)
    (suf : List DirEntry) (hbad : bad.file_name = none)
    (hpre : ∀ e ∈ pre, e.file_name.isSome = true ∧ qualifies e = false) :
    get_default_network_interface (some (pre ++ bad :: suf)) = none := by
  show scanEntries (pre ++ bad :: suf) = none
  revert hpre
  induction pre with
  | nil => intro _; simp [scanEntries, hbad]
  | cons e pre' ih =>
    intro hpre
    have hrest : ∀ x ∈ pre', x.file_name.isSome = true ∧ qualifies x = false :=
      fun x hx => hpre x (List.mem_cons_of_mem e hx)
    obtain ⟨he, hq⟩ := hpre e (List.mem_cons_self e pre')
    obtain ⟨iface, hif⟩ := Option.isSome_iff_exists.1 he
    simp only [List.cons_append, scanEntries, hif]
    by_cases h1 : iface = "lo"
    · simp only [h1, if_pos rfl]
      exact ih hrest
    · by_cases h2 : strContains (e.operstate.getD "") "up" = true
      · by_cases h3 : rustTrim (e.carrier.getD "") = "1"
        · exfalso
          have hqt : qualifies e = true := by simp [qualifies, hif, h1, h2, h3]
          rw [hqt] at hq
          exact Bool.noConfusion hq
        · rw [if_neg h1, if_neg (by simp [h2]), if_neg h3]
          exact ih hrest
      · rw [if_neg h1, if_pos h2]
        exact ih hrest

/-- C9 witness: with a non-UTF-8 entry between `"lo"` and a qualifying
`"wlan0"`, the scan returns `none`, although `"wlan0"` alone would qualify. -/
theorem c9_nonutf8_name_aborts_scan_witness :
    get_default_network_interface (some [entryLo, entryBadName, entryWlanUp]) = none ∧
    qualifies entryWlanUp = true := by
  refine ⟨?_, by decide⟩
  exact c9_nonutf8_name_aborts_scan [entryLo] entryBadName [entryWlanUp]
    rfl (by decide)

/-- C10: clicking the unit entity that is already active is a complete no-op
on the application state: `Message::UnitChanged` returns the state unchanged,
so in particular both stored raw rates, the persisted unit configuration and
all display strings are untouched. -/
theorem c10_active_unit_reselect_noop (s : AppModel) (entity : Nat)
    (h : s.unit_model.active = entity) :
    update_unit_changed s entity = s := by
  rw [update_unit_changed, if_pos h]

/-- C10 witness: reselecting the active bytes entity of a concrete state
leaves the state unchanged. -/
theorem c10_active_unit_reselect_noop_witness :
    update_unit_changed (mkState .Bytes 1 0 0 0 0 none) 1 =
      mkState .Bytes 1 0 0 0 0 none :=
  c10_active_unit_reselect_noop _ 1 rfl

/-- C2 counterexample: with Bits mode, a 2 s interval, previous counter 1000
and a fresh read of 1001 (byte delta 1), the code stores `1 * 8 / 2 = 4`,
while the claimed order of operations (integer-divide the delta by the
interval first, then multiply the quotient by 8) yields `(1 / 2) * 8 = 0`. -/
theorem c2_division_order_counterexample :
    (update_bandwidth (mkState .Bits 2 1000 0 0 0 (some "eth0"))
        (some 1001) none).download_speed = 4 ∧
    (1001 - 1000) / 2 * 8 = 0 ∧ (4 : Nat) ≠ (1001 - 1000) / 2 * 8 := by
  refine ⟨?_, ?_, ?_⟩ <;> decide

/-- C2 (amended): on a sample tick with a selected interface, successful
reads, `previous ≤ current < 2 ^ 64` and an interval in `1..=10`, the stored
raw rate in Bytes mode is `delta / interval` (integer division) and in Bits
mode `(delta * 8) % 2 ^ 64 / interval`: the `× 8` unit scaling happens
before the division by the interval, not after it. -/
theorem c2_rate_computation_amended (s : AppModel) (curR curT : Nat)
    (hif : s.default_network_interface.isSome = true)
    (_hr1 : 1 ≤ s.config.update_rate) (_hr10 : s.config.update_rate ≤ 10)
    (hprevR : s.received_bytes ≤ curR) (hcurR : curR < 2 ^ 64)
    (hprevT : s.sent_bytes ≤ curT) (hcurT : curT < 2 ^ 64) :
    (update_bandwidth s (some curR) (some curT)).download_speed =
      (if s.config.unit = Unit.Bits then (curR - s.received_bytes) * 8 % 2 ^ 64
        else curR - s.received_bytes) / s.config.update_rate ∧
    (update_bandwidth s (some curR) (some curT)).upload_speed =
      (if s.config.unit = Unit.Bits then (curT - s.sent_bytes) * 8 % 2 ^ 64
        else curT - s.sent_bytes) / s.config.update_rate := by
  obtain ⟨i, hi⟩ := Option.isSome_iff_exists.1 hif
  have hsubR : wrapSub curR s.received_bytes = curR - s.received_bytes :=
    wrapSub_of_le hprevR hcurR
  have hsubT : wrapSub curT s.sent_bytes = curT - s.sent_bytes :=
    wrapSub_of_le hprevT hcurT
  constructor
  · cases hu : s.config.unit <;> simp [update_bandwidth, hi, hu, hsubR, U64]
  · cases hu : s.config.unit <;> simp [update_bandwidth, hi, hu, hsubR, hsubT, U64]

/-- C2 witness: the spec's own example, previous 1000, current 1500, 5 s
interval, Bytes mode, yields a stored rate of 100 B/s. -/
theorem c2_rate_computation_amended_witness :
    (update_bandwidth (mkState .Bytes 5 1000 0 0 0 (some "eth0"))
        (some 1500) (some 0)).download_speed = 100 := by
  have h := (c2_rate_computation_amended (mkState .Bytes 5 1000 0 0 0 (some "eth0"))
    1500 0 (by decide) (by decide) (by decide) (by decide) (by decide)
    (by decide) (by decide)).1
  exact h.trans (by decide)

/-- C7: on a sample tick, if no interface is selected the whole state is left
unchanged; a failed read of a direction's counter leaves that direction's
stored raw rate, baseline counter and display unchanged; and the two
directions are independent: the download-side outcome does not depend on the
upload read and vice versa. -/
theorem c7_failed_reads_leave_rates (s : AppModel) (rx tx : Option Nat) :
    (s.default_network_interface = none → update_bandwidth s rx tx = s) ∧
    (rx = none →
      (update_bandwidth s rx tx).download_speed = s.download_speed ∧
      (update_bandwidth s rx tx).received_bytes = s.received_bytes ∧
      (update_bandwidth s rx tx).download_speed_display = s.download_speed_display) ∧
    (tx = none →
      (update_bandwidth s rx tx).upload_speed = s.upload_speed ∧
      (update_bandwidth s rx tx).sent_bytes = s.sent_bytes ∧
      (update_bandwidth s rx tx).upload_speed_display = s.upload_speed_display) ∧
    (∀ rx' : Option Nat,
      (update_bandwidth s rx tx).upload_speed = (update_bandwidth s rx' tx).upload_speed ∧
      (update_bandwidth s rx tx).sent_bytes = (update_bandwidth s rx' tx).sent_bytes) ∧
    (∀ tx' : Option Nat,
      (update_bandwidth s rx tx).download_speed = (update_bandwidth s rx tx').download_speed ∧
      (update_bandwidth s rx tx).received_bytes = (update_bandwidth s rx tx').received_bytes) := by
  refine ⟨fun h => by simp [update_bandwidth, h], ?_, ?_, ?_, ?_⟩
  · rintro rfl
    cases hifc : s.default_network_interface <;> cases tx <;>
      simp [update_bandwidth, hifc]
  · rintro rfl
    cases hifc : s.default_network_interface <;> cases rx <;>
      simp [update_bandwidth, hifc]
  · intro rx'
    cases hifc : s.default_network_interface <;> cases rx <;> cases rx' <;> cases tx <;>
      simp [update_bandwidth, hifc]
  · intro tx'
    cases hifc : s.default_network_interface <;> cases rx <;> cases tx <;> cases tx' <;>
      simp [update_bandwidth, hifc]

/-- C7 witness: with no selected interface, a tick with two successful reads
is a no-op on a concrete state. -/
theorem c7_failed_reads_leave_rates_witness :
    update_bandwidth (mkState .Bytes 1 0 0 7 9 none) (some 100) (some 200) =
      mkState .Bytes 1 0 0 7 9 none :=
  (c7_failed_reads_leave_rates (mkState .Bytes 1 0 0 7 9 none)
    (some 100) (some 200)).1 rfl

/-- C8 counterexample: with stored download rate `2 ^ 61` (divisible by 8)
in Bytes mode, toggling to Bits wraps the `*= 8` modulo `2 ^ 64`: the stored
rate becomes `0`, not `8 * 2 ^ 61`, and the subsequent toggle back to Bytes
yields `0 / 8 = 0`, not the original `2 ^ 61` — so neither the exact `× 8`
rescale nor the round trip holds universally. -/
theorem c8_unit_toggle_counterexample :
    (update_unit_changed (mkState .Bytes 1 0 0 (2 ^ 61) 0 none) 0).download_speed = 0 ∧
    (0 : Nat) ≠ 8 * 2 ^ 61 ∧
    (update_unit_changed
        (update_unit_changed (mkState .Bytes 1 0 0 (2 ^ 61) 0 none) 0) 1).download_speed = 0 ∧
    (0 : Nat) ≠ 2 ^ 61 ∧ 2 ^ 61 % 8 = 0 := by
  refine ⟨?_, ?_, ?_, ?_, ?_⟩ <;> decide

/-- C8 (amended): toggling Bytes→Bits rescales both stored raw rates in place
by `× 8` modulo `2 ^ 64` — exactly 8 times their value whenever they are
below `2 ^ 61` — without touching the stored counters (no fresh reads), and
persists `Bits`; toggling back to Bytes divides by 8 and restores the
original rates exactly for values below `2 ^ 61`. -/
theorem c8_unit_toggle_amended (s : AppModel)
    (hactive : s.unit_model.active = s.bytes_entity)
    (hne : s.bits_entity ≠ s.bytes_entity)
    (hd : s.download_speed < 2 ^ 61) (hu : s.upload_speed < 2 ^ 61) :
    (update_unit_changed s s.bits_entity).download_speed = 8 * s.download_speed ∧
    (update_unit_changed s s.bits_entity).upload_speed = 8 * s.upload_speed ∧
    (update_unit_changed s s.bits_entity).config.unit = Unit.Bits ∧
    (update_unit_changed s s.bits_entity).received_bytes = s.received_bytes ∧
    (update_unit_changed s s.bits_entity).sent_bytes = s.sent_bytes ∧
    (update_unit_changed (update_unit_changed s s.bits_entity) s.bytes_entity).download_speed
      = s.download_speed ∧
    (update_unit_changed (update_unit_changed s s.bits_entity) s.bytes_entity).upload_speed
      = s.upload_speed ∧
    (update_unit_changed (update_unit_changed s s.bits_entity) s.bytes_entity).config.unit
      = Unit.Bytes := by
  have hg1 : ¬ s.unit_model.active = s.bits_entity := by
    rw [hactive]
    exact fun h => hne h.symm
  obtain ⟨hA1, hA2, hA3, hA4, hA5, hA6, hA7, hA8, hA9⟩ :=
    update_unit_changed_to_bits s hg1
  have hd8 : s.download_speed * 8 % U64 = 8 * s.download_speed := by
    rw [Nat.mod_eq_of_lt (by simp only [U64]; omega), Nat.mul_comm]
  have hu8 : s.upload_speed * 8 % U64 = 8 * s.upload_speed := by
    rw [Nat.mod_eq_of_lt (by simp only [U64]; omega), Nat.mul_comm]
  have hg2 : ¬ (update_unit_changed s s.bits_entity).unit_model.active =
      (update_unit_changed s s.bits_entity).bytes_entity := by
    rw [hA7, hA9]
    exact hne
  have hne2 : ¬ (update_unit_changed s s.bits_entity).bytes_entity =
      (update_unit_changed s s.bits_entity).bits_entity := by
    rw [hA8, hA9]
    exact fun h => hne h.symm
  obtain ⟨hB1, hB2, hB3⟩ :=
    update_unit_changed_to_bytes (update_unit_changed s s.bits_entity) hg2 hne2
  rw [hA9] at hB1 hB2 hB3
  refine ⟨hA1.trans hd8, hA2.trans hu8, hA3, hA5, hA6, ?_, ?_, hB3⟩
  · rw [hB1, hA1, hd8]
    omega
  · rw [hB2, hA2, hu8]
    omega

/-- C8 witness: at a concrete Bytes-mode state with rates 100 and 200, the
toggle to bits yields 800 and 1600 and the toggle back restores 100 and
200. -/
theorem c8_unit_toggle_amended_witness :
    (update_unit_changed (mkState .Bytes 1 0 0 100 200 none)
        (mkState .Bytes 1 0 0 100 200 none).bits_entity).download_speed = 800 ∧
    (update_unit_changed
        (update_unit_changed (mkState .Bytes 1 0 0 100 200 none)
          (mkState .Bytes 1 0 0 100 200 none).bits_entity)
        (mkState .Bytes 1 0 0 100 200 none).bytes_entity).upload_speed = 200 := by
  have h := c8_unit_toggle_amended (mkState .Bytes 1 0 0 100 200 none)
    rfl (by decide) (by decide) (by decide)
  exact ⟨h.1.trans (by decide), h.2.2.2.2.2.2.1.trans (by decide)⟩

/-- C3 counterexample: for raw rate 1024000 (power 19, so K-prefixed, and
rebased scaled value exactly `1024000 / 2 ^ 10 = 1000 ≥ 100`) the
pre-cleanup rendering produced by `format_speed`'s `val >= 1000.0` branch is
`"1000"`, which has zero decimal places, not the one decimal place the claim
requires for `scaled ≥ 100`; in particular a zero-decimal case does exist
for prefixed values. -/
theorem c3_decimal_places_counterexample :
    10 ≤ ilog2 1024000 ∧
    ilog2 1024000 - ilog2 1024000 % 10 = 10 ∧
    100 * 2 ^ 10 ≤ 1024000 ∧
    format_speed_formatted 1024000 10 = "1000".toList ∧
    decimalPlaces (format_speed_formatted 1024000 10) = 0 := by
  refine ⟨?_, ?_, ?_, ?_, ?_⟩ <;> decide

/-- C3 (amended): for every raw rate below `2 ^ 53` (where the source's f64
arithmetic is exact) whose power is at least 10 (K/M-prefixed), the
pre-cleanup numeric rendering has zero decimal places when the rebased
scaled value `speed / 2 ^ pp` is at least 1000, exactly one when it is in
`[100, 1000)` and exactly two when it is below 100; trailing zeros, then a
trailing decimal point, are stripped from that rendering and the result is
truncated to at most 5 characters.  (The claim missed the `>= 1000.0`
zero-decimal branch, which is reachable for prefixed values.) -/
theorem c3_decimal_places_amended (speed pp : Nat) (_h53 : speed < 2 ^ 53)
    (_hs : 0 < speed) (_hp : 10 ≤ ilog2 speed)
    (_hpp : pp = ilog2 speed - ilog2 speed % 10) :
    decimalPlaces (format_speed_formatted speed pp) =
      (if 1000 * 2 ^ pp ≤ speed then 0
        else if 100 * 2 ^ pp ≤ speed then 1 else 2) ∧
    format_speed speed pp =
      (dropTrailingDots (dropTrailingZeros (format_speed_formatted speed pp))).take 5 := by
  refine ⟨?_, rfl⟩
  unfold format_speed_formatted
  split_ifs <;> simp [decimalPlaces_fmtFixed]

/-- C3 witness: raw rate 2048 (power 11, scaled value 2 < 100) renders with
two decimal places before cleanup. -/
theorem c3_decimal_places_amended_witness :
    10 ≤ ilog2 2048 ∧ decimalPlaces (format_speed_formatted 2048 10) = 2 := by
  refine ⟨by decide, ?_⟩
  have h := (c3_decimal_places_amended 2048 10 (by decide) (by decide)
    (by decide) (by decide)).1
  exact h.trans (by decide)

/-- C4 counterexample: at raw rate 0 in Bits mode the unit string produced by
`set_download_speed_display` is `"b/s  ↓"`, not the bare `"b/s"` the claim
requires ("contains nothing else"): the source appends a direction marker
`"  ↓"` (resp. `"  ↑"`) after the unit. -/
theorem c4_unit_suffix_counterexample :
    (set_download_speed_display 0 Unit.Bits).2 = "b/s  ↓".toList ∧
    (set_download_speed_display 0 Unit.Bits).2 ≠ "b/s".toList := by
  refine ⟨?_, ?_⟩ <;> decide

/-- C4 (amended): for every `u64` raw rate and unit mode, the produced unit
string equals exactly the magnitude prefix (`M` if `power ≥ 20`, `K` if
`10 ≤ power < 20`, empty if `power < 10`, where `power = ⌊log₂ raw⌋` for
positive raw rates and 0 otherwise) concatenated with `"b/s"` in Bits mode
or `"B/s"` in Bytes mode, concatenated with the direction marker `"  ↓"`
(download) resp. `"  ↑"` (upload) — and contains nothing else. -/
theorem c4_unit_suffix_amended (speed : Nat) (u : Bitrate.Unit)
    (h : speed < 2 ^ 64) :
    (set_download_speed_display speed u).2 =
      (if 20 ≤ (if 0 < speed then Nat.log2 speed else 0) then ['M']
        else if 10 ≤ (if 0 < speed then Nat.log2 speed else 0) then ['K'] else []) ++
      (match u with
        | Unit.Bits => "b/s".toList
        | Unit.Bytes => "B/s".toList) ++ "  ↓".toList ∧
    (set_upload_speed_display speed u).2 =
      (if 20 ≤ (if 0 < speed then Nat.log2 speed else 0) then ['M']
        else if 10 ≤ (if 0 < speed then Nat.log2 speed else 0) then ['K'] else []) ++
      (match u with
        | Unit.Bits => "b/s".toList
        | Unit.Bytes => "B/s".toList) ++ "  ↑".toList := by
  have hl : ilog2 speed = Nat.log2 speed := ilog2_eq_log2 h
  constructor <;>
    simp [set_download_speed_display, set_upload_speed_display, hl]

/-- C4 witness: raw rate 1500000 (power 20) in Bits mode yields the unit
string `"Mb/s  ↓"` for the download direction. -/
theorem c4_unit_suffix_amended_witness :
    (set_download_speed_display 1500000 Unit.Bits).2 = "Mb/s  ↓".toList := by
  have hlog : Nat.log2 1500000 = 20 := by
    rw [← ilog2_eq_log2 (by decide)]
    decide
  have h := (c4_unit_suffix_amended 1500000 Unit.Bits (by decide)).1
  rw [h, hlog]
  decide

/-- C5: for every `u64` raw rate and unit mode, the formatter produces a
value string of at most 5 characters (both directions) and a non-empty unit
string that contains `"b/s"` as a substring exactly in Bits mode and
`"B/s"` exactly in Bytes mode (so exactly one of the two, optionally
K/M-prefixed); a raw rate of 0 renders as the value string `"0"` with no
`K` or `M` in the unit string. -/
theorem c5_format_bounds (speed : Nat) (u : Bitrate.Unit) (h : speed < 2 ^ 64) :
    (set_download_speed_display speed u).1.length ≤ 5 ∧
    (set_upload_speed_display speed u).1.length ≤ 5 ∧
    (set_download_speed_display speed u).2 ≠ [] ∧
    (("b/s".toList <:+: (set_download_speed_display speed u).2) ↔ u = Unit.Bits) ∧
    (("B/s".toList <:+: (set_download_speed_display speed u).2) ↔ u = Unit.Bytes) ∧
    (speed = 0 → (set_download_speed_display speed u).1 = ['0'] ∧
      'K' ∉ (set_download_speed_display speed u).2 ∧
      'M' ∉ (set_download_speed_display speed u).2) := by
  refine ⟨?_, ?_, ?_, ?_, ?_, ?_⟩
  · simp only [set_download_speed_display]
    split_ifs with h0 h10 h10z
    · simp [format_speed]
    · have hne : speed ≠ 0 := Nat.pos_iff_ne_zero.1 h0
      have hlt : Nat.log2 speed < 10 := by
        rw [← ilog2_eq_log2 h]
        omega
      have hsmall : speed < 2 ^ 10 := (Nat.log2_lt hne).1 hlt
      have hpp : ilog2 speed - ilog2 speed % 10 = 0 := by
        rw [Nat.mod_eq_of_lt (by omega), Nat.sub_self]
      rw [hpp, fmtFixed_pp_zero]
      have h4 : (natChars speed).length ≤ 4 :=
        natDigits_length_le 64 speed 4 (by norm_num) (by norm_num at hsmall ⊢; omega)
          (by norm_num)
      omega
    · exact absurd h10z (by norm_num)
    · have hz : speed = 0 := by omega
      subst hz
      decide
  · simp only [set_upload_speed_display]
    split_ifs with h0 h10 h10z
    · simp [format_speed]
    · have hne : speed ≠ 0 := Nat.pos_iff_ne_zero.1 h0
      have hlt : Nat.log2 speed < 10 := by
        rw [← ilog2_eq_log2 h]
        omega
      have hsmall : speed < 2 ^ 10 := (Nat.log2_lt hne).1 hlt
      have hpp : ilog2 speed - ilog2 speed % 10 = 0 := by
        rw [Nat.mod_eq_of_lt (by omega), Nat.sub_self]
      rw [hpp, fmtFixed_pp_zero]
      have h4 : (natChars speed).length ≤ 4 :=
        natDigits_length_le 64 speed 4 (by norm_num) (by norm_num at hsmall ⊢; omega)
          (by norm_num)
      omega
    · exact absurd h10z (by norm_num)
    · have hz : speed = 0 := by omega
      subst hz
      decide
  · simp only [set_download_speed_display]
    cases u <;> split_ifs <;> decide
  · simp only [set_download_speed_display]
    cases u <;> split_ifs <;> decide
  · simp only [set_download_speed_display]
    cases u <;> split_ifs <;> decide
  · rintro rfl
    cases u <;> refine ⟨?_, ?_, ?_⟩ <;> decide

/-- C5 witness: raw rate 999 in Bits mode has a value string of at most 5
characters and a unit string containing `"b/s"`. -/
theorem c5_format_bounds_witness :
    (set_download_speed_display 999 Unit.Bits).1.length ≤ 5 ∧
    ("b/s".toList <:+: (set_download_speed_display 999 Unit.Bits).2) := by
  have h := c5_format_bounds 999 Unit.Bits (by decide)
  exact ⟨h.1, h.2.2.2.1.2 rfl⟩
